import Mathlib

/-!
Verification of `main.go` of the launchdarkly-flags reporting tool.

The Go program is a single linear pipeline: paginated GET of flag pages,
one status-query POST per page, construction of `Flag` records, threshold
filtering, a `sort.Slice` ordering, and rendering.  This file embeds that
pipeline shallowly:

* Go `time.Time` is embedded as an integer wall-clock reading, in
  nanoseconds since the Unix epoch 1970-01-01T00:00:00Z.  Go's zero
  `time.Time` is 0001-01-01T00:00:00Z, which is `-62135596800` seconds
  before the epoch; `IsZero` compares against that sentinel, exactly as
  in Go.  A Go `time.Duration` is likewise an integer count of
  nanoseconds.  `time.Time.Sub` (and so `time.Since`) saturates at
  `±(2^63-1)` ns, which `timeSub` reproduces.  `time.Since(t)` reads the
  current instant implicitly; every embedded function that calls it takes
  an explicit `now` parameter instead (one fixed evaluation instant for a
  run).
* Go machine integers (`int64` epoch milliseconds) are embedded as `Int`
  with Go's truncating division `Int.tdiv` / `Int.tmod`.
* Go string comparison is byte-wise lexicographic; on UTF-8 encoded
  strings that coincides with code-point order, embedded by `strLt` over
  the character list of a `String`.
* The two HTTP endpoints are an oracle (`FetchEnv`): a function from URL
  to decoded `GetResponse` or error, and from URL and body to decoded
  `PostResponse` or error.  Go's `(result, error)` pairs are embedded as
  `Except`, so `Except.error e` is Go's `return nil, err`.
* `fmt.Sprintf "%.1f"` formatting of a `float64` quotient is embedded as
  exact rational rounding to one decimal place with ties to even, the
  rounding mode of Go's `strconv` formatting; for the magnitudes proved
  about here (quotients at least `10^-3` away from a decimal tie, while
  the `float64` quotient is within relative error `2^-52` of the exact
  one) the two agree digit for digit.
-/

namespace LD

/-! ## Time model (Go `time` package, wall clock) -/

/-- Go's zero `time.Time` (0001-01-01T00:00:00Z) expressed in nanoseconds
since the Unix epoch: `-62135596800` seconds. -/
def goZeroTime : Int := -62135596800 * 1000000000

/-- Go `time.Time.IsZero`. -/
def timeIsZero (t : Int) : Bool := t = goZeroTime

/-- `math.MaxInt64` ns, the saturation bound of Go `time.Duration`. -/
def maxDuration : Int := 9223372036854775807

/-- `math.MinInt64` ns, the saturation bound of Go `time.Duration`. -/
def minDuration : Int := -9223372036854775808

/-- Go `time.Time.Sub` on wall clocks: the exact difference saturated to
the representable `time.Duration` range. -/
def timeSub (t u : Int) : Int := max minDuration (min maxDuration (t - u))

/-- Go `time.Since(t)` evaluated when the current instant is `now`. -/
def timeSince (now t : Int) : Int := timeSub now t

/-- Go `time.Unix(sec, nsec)` as an instant in ns since the epoch. -/
def timeUnix (sec nsec : Int) : Int := sec * 1000000000 + nsec

/-- Go `time.Time.Unix()`: whole seconds since the epoch (floor of the
nanosecond reading, since Go normalises `nsec` into `[0, 10^9)`). -/
def timeUnixSec (t : Int) : Int := Int.ediv t 1000000000

/-! ## Go byte-wise string order -/

/-- Lexicographic order on character lists, by code point. -/
def charListLt : List Char → List Char → Bool
  | [], [] => false
  | [], _ :: _ => true
  | _ :: _, [] => false
  | a :: as, b :: bs => if a < b then true else if b < a then false else charListLt as bs

/-- Go `<` on strings: byte-wise lexicographic comparison, which on UTF-8
data equals code-point lexicographic comparison. -/
def strLt (s t : String) : Bool := charListLt s.data t.data

/-! ## The `Flag` record and its methods (main.go lines 16-87) -/

/-- `type Flag struct` (main.go line 16). -/
structure Flag where
  Key : String
  MaintainerEmail : String
  CreationDate : Int
  LastModified : Int
  LastRequested : Int
  Temporary : Bool
  deriving DecidableEq, Repr

/-- `func (f Flag) CreationDateMoreThan(value time.Duration) bool`
(main.go line 25): zero time, or `time.Since` strictly greater. -/
def Flag.CreationDateMoreThan (f : Flag) (now : Int) (value : Int) : Bool :=
  timeIsZero f.CreationDate || timeSince now f.CreationDate > value

/-- `func (f Flag) LastModifiedMoreThan(value time.Duration) bool`
(main.go line 29). -/
def Flag.LastModifiedMoreThan (f : Flag) (now : Int) (value : Int) : Bool :=
  timeIsZero f.LastModified || timeSince now f.LastModified > value

/-- `func (f Flag) LastRequestedMoreThan(value time.Duration) bool`
(main.go line 33). -/
def Flag.LastRequestedMoreThan (f : Flag) (now : Int) (value : Int) : Bool :=
  timeIsZero f.LastRequested || timeSince now f.LastRequested > value

/-- `time.Second` in ns. -/
def second : Int := 1000000000

/-- `time.Minute` in ns. -/
def minute : Int := 60 * second

/-- `time.Hour` in ns. -/
def hour : Int := 60 * minute

/-- Round the exact rational `num / den` (for `den > 0`) to the nearest
integer, ties to even: the rounding applied by Go's `%.f` verbs. -/
def roundHalfEven (num den : Int) : Int :=
  let q := Int.ediv num den
  let r := Int.emod num den
  if 2 * r < den then q
  else if 2 * r > den then q + 1
  else if Int.emod q 2 = 0 then q else q + 1

/-- `fmt.Sprintf("%.1f", float64(num)/float64(den))`: one decimal place. -/
def fmtDec1 (num den : Int) : String :=
  let t := roundHalfEven (10 * num) den
  (if t < 0 then "-" else "") ++ toString (t.natAbs / 10) ++ "." ++ toString (t.natAbs % 10)

/-- `fmt.Sprintf("%.0f", float64(num)/float64(den))`: zero decimals. -/
def fmtDec0 (num den : Int) : String :=
  let t := roundHalfEven num den
  (if t < 0 then "-" else "") ++ toString t.natAbs

/-- The unit-selecting `switch` of `func (f Flag) ago(ago time.Duration)`
(main.go lines 58-73). -/
def agoString (ago : Int) : String :=
  if ago > 365 * 24 * hour then fmtDec1 ago (365 * 24 * hour) ++ " years ago"
  else if ago > 30 * 24 * hour then fmtDec1 ago (30 * 24 * hour) ++ " months ago"
  else if ago > 24 * hour then fmtDec1 ago (24 * hour) ++ " days ago"
  else if ago > hour then fmtDec1 ago hour ++ " hours ago"
  else if ago > minute then fmtDec1 ago minute ++ " minutes ago"
  else fmtDec0 ago second ++ " seconds ago"

/-- `func (f Flag) ago(ago time.Duration) string` (main.go line 58); the
receiver is unused in the source as well. -/
def Flag.ago (_f : Flag) (d : Int) : String := agoString d

/-- `func (f Flag) CreationDateAgo() string` (main.go line 37). -/
def Flag.CreationDateAgo (f : Flag) (now : Int) : String :=
  if timeIsZero f.CreationDate then "never" else f.ago (timeSince now f.CreationDate)

/-- `func (f Flag) LastModifiedAgo() string` (main.go line 44). -/
def Flag.LastModifiedAgo (f : Flag) (now : Int) : String :=
  if timeIsZero f.LastModified then "never" else f.ago (timeSince now f.LastModified)

/-- `func (f Flag) LastRequestedAgo() string` (main.go line 51). -/
def Flag.LastRequestedAgo (f : Flag) (now : Int) : String :=
  if timeIsZero f.LastRequested then "never" else f.ago (timeSince now f.LastRequested)

/-- `func (f Flag) GetStatus(threshold time.Duration) string`
(main.go line 75). -/
def Flag.GetStatus (f : Flag) (now : Int) (threshold : Int) : String :=
  if f.LastRequestedMoreThan now threshold then "inactive" else "inuse"

/-- `func (f Flag) GetTemporary() string` (main.go line 82). -/
def Flag.GetTemporary (f : Flag) : String :=
  if f.Temporary then "temporary" else "permanent"

/-! ## API response shapes (main.go lines 160-206)

Go decodes JSON objects into maps; a JSON object has unique keys, so a
decoded map is embedded as an association list with unique keys, looked
up with `List.lookup`.  A missing key yields Go's zero value via
`Option.getD`. -/

/-- The `_maintainer` object of a page item (main.go line 169). -/
structure Maintainer where
  Email : String
  deriving DecidableEq, Repr

/-- A value of the `environments` map of a page item (main.go line 174). -/
structure EnvModified where
  LastModified : Int
  deriving DecidableEq, Repr

/-- One element of `GetResponse.Items` (main.go lines 167-177).
`CreationDate` and `LastModified` are epoch-millisecond `int64`s. -/
structure GetItem where
  Key : String
  Maintainer : Maintainer
  Temporary : Bool
  CreationDate : Int
  Environments : List (String × EnvModified)
  deriving DecidableEq, Repr

/-- The `next` link object of `_links` (main.go lines 162-165); `Typ`
stands for the Go field `Type`, a Lean keyword. -/
structure NextLink where
  Href : String
  Typ : String
  deriving DecidableEq, Repr

/-- The `_links` object (main.go lines 161-166). -/
structure GetLinks where
  Next : NextLink
  deriving DecidableEq, Repr

/-- `type GetResponse struct` (main.go line 160). -/
structure GetResponse where
  Links : GetLinks
  Items : List GetItem
  deriving DecidableEq, Repr

/-- `func (r *GetResponse) Keys() []string` (main.go line 180): the item
keys in item order. -/
def GetResponse.Keys (r : GetResponse) : List String :=
  r.Items.map (fun item => item.Key)

/-- A value of the `environments` map of a status item
(main.go lines 191-194); `LastRequested` is a decoded `time.Time`. -/
structure PostEnvStatus where
  Name : String
  LastRequested : Int
  deriving DecidableEq, Repr

/-- One element of `PostResponse.Items` (main.go lines 189-195). -/
structure PostItem where
  Key : String
  Environments : List (String × PostEnvStatus)
  deriving DecidableEq, Repr

/-- `type PostResponse struct` (main.go line 188). -/
structure PostResponse where
  Items : List PostItem
  deriving DecidableEq, Repr

/-- Go map assignment `m[k] = v` on an association list with unique keys:
overwrite the binding if present, else append. -/
def assocSet : List (String × Int) → String → Int → List (String × Int)
  | [], k, v => [(k, v)]
  | (k2, v2) :: rest, k, v =>
    if k2 = k then (k2, v) :: rest else (k2, v2) :: assocSet rest k v

/-- `func (r *PostResponse) LastRequested(env string) map[string]time.Time`
(main.go lines 198-206): for each item whose `environments` map contains
`env`, record its `lastRequested` under the item key. -/
def PostResponse.LastRequested (r : PostResponse) (env : String) : List (String × Int) :=
  r.Items.foldl (fun lastRequested item =>
    match List.lookup env item.Environments with
    | some value => assocSet lastRequested item.Key value.LastRequested
    | none => lastRequested) []

/-! ## The retrieval pipeline (main.go lines 97-107, 208-248) -/

/-- `host` (main.go line 98). -/
def host : String := "https://app.launchdarkly.com"

/-- `func firstPage(project, env string) string` (main.go line 101). -/
def firstPage (project env : String) : String :=
  "/api/v2/flags/" ++ project ++ "?limit=50&env=" ++ env ++
    "&sort=creationDate&filter=state%3Alive"

/-- `func queryUrl(project string) string` (main.go line 105). -/
def queryUrl (project : String) : String :=
  "/api/v2/projects/" ++ project ++ "/flag-statuses/queries"

/-- The JSON body of the status-query POST (main.go lines 221-224). -/
structure PostBody where
  environmentKeys : List String
  flagKeys : List String
  deriving DecidableEq, Repr

/-- The two HTTP endpoints as an oracle: `cli.get` decoding a
`GetResponse` from a URL, and `cli.post` decoding a `PostResponse` from a
URL and a request body.  `Except.error` covers both transport and decode
failures; Go's `(nil, err)` return is `Except.error err`. -/
structure FetchEnv where
  fetchGet : String → Except String GetResponse
  fetchPost : String → PostBody → Except String PostResponse

/-- The `Flag` construction of the page loop body (main.go lines 230-244):
empty maintainer email defaults to `"unknown"`; the epoch-ms integers go
through `time.Unix(ms/1000, ms%1000*1000000)` with Go's truncating `/`
and `%`; a missing `env` key in `item.Environments` yields the zero
`int64`; a key missing from the `lastRequested` map yields the zero
`time.Time`. -/
def mkFlag (env : String) (lastRequested : List (String × Int)) (item : GetItem) : Flag :=
  let maintainerEmail := if item.Maintainer.Email = "" then "unknown" else item.Maintainer.Email
  let lastModifiedMs := ((List.lookup env item.Environments).getD ⟨0⟩).LastModified
  { Key := item.Key
    MaintainerEmail := maintainerEmail
    CreationDate := timeUnix (Int.tdiv item.CreationDate 1000)
      (Int.tmod item.CreationDate 1000 * 1000000)
    LastModified := timeUnix (Int.tdiv lastModifiedMs 1000)
      (Int.tmod lastModifiedMs 1000 * 1000000)
    LastRequested := (List.lookup item.Key lastRequested).getD goZeroTime
    Temporary := item.Temporary }

/-- The pagination loop of `func (cli *Client) GetFlags`
(main.go lines 212-245), with the accumulated flag list and, as
instrumentation, the list of POST bodies issued so far.  The loop runs
while the current URL is nonempty; the Go loop has no iteration bound, so
a fuel argument (irrelevant whenever it exceeds the page count) makes the
recursion well founded. -/
def getFlagsLoop (E : FetchEnv) (project env : String) :
    Nat → String → List Flag → List PostBody → Except String (List Flag × List PostBody)
  | fuel, url, flags, posts =>
    if url = "" then Except.ok (flags, posts)
    else
      match fuel with
      | 0 => Except.error "fuel exhausted"
      | Nat.succ fuel =>
        match E.fetchGet url with
        | Except.error e => Except.error e
        | Except.ok getResponse =>
          let nextUrl := getResponse.Links.Next.Href
          let body : PostBody := { environmentKeys := [env], flagKeys := getResponse.Keys }
          match E.fetchPost (queryUrl project) body with
          | Except.error e => Except.error e
          | Except.ok postResponse =>
            let lastRequested := postResponse.LastRequested env
            getFlagsLoop E project env fuel nextUrl
              (flags ++ getResponse.Items.map (mkFlag env lastRequested))
              (posts ++ [body])

/-- `func (cli *Client) GetFlags(ctx, project, env)` (main.go line 208):
run the pagination loop from the first-page URL with empty accumulators. -/
def GetFlags (E : FetchEnv) (project env : String) (fuel : Nat) :
    Except String (List Flag × List PostBody) :=
  getFlagsLoop E project env fuel (firstPage project env) [] []

/-! ## Filter and sort (main.go lines 277-304) -/

/-- The filtering loop of `main` (main.go lines 277-290): skip a flag
unless its creation is more than `threshold` ago, its last-modified is
more than `threshold` ago, and it is temporary or `-with-permanent` is
set. -/
def filterFlags (now : Int) (threshold : Int) (withPermanent : Bool)
    (flags : List Flag) : List Flag :=
  flags.foldl (fun filtered item =>
    if !(item.CreationDateMoreThan now threshold) then filtered
    else if !(item.LastModifiedMoreThan now threshold) then filtered
    else if !item.Temporary && !withPermanent then filtered
    else filtered ++ [item]) []

/-- The `sort.Slice` comparator of `main` (main.go lines 292-304):
maintainer email ascending (Go byte order), then inactive before active
(`LastRequestedMoreThan threshold`), then `CreationDate.Unix()` (whole
seconds) ascending. -/
def sortSliceLess (now : Int) (threshold : Int) (a b : Flag) : Bool :=
  if a.MaintainerEmail ≠ b.MaintainerEmail then
    strLt a.MaintainerEmail b.MaintainerEmail
  else
    let inactivea := a.LastRequestedMoreThan now threshold
    let inactiveb := b.LastRequestedMoreThan now threshold
    if inactivea ≠ inactiveb then inactivea
    else decide (timeUnixSec a.CreationDate < timeUnixSec b.CreationDate)

/-- What `sort.Slice(flags, less)` guarantees about its result: a
permutation of the input in which no later element is `less` than an
earlier one.  `sort.Slice` is documented as not guaranteed to be stable
(Go offers `sort.SliceStable` for that), so this contract — and nothing
finer — is the semantics of the call in `main`. -/
def IsSortSliceResult (less : Flag → Flag → Bool) (input output : List Flag) : Prop :=
  output.Perm input ∧ List.Pairwise (fun a b => less b a = false) output

/-! ## Pagination chains and concrete scenario values -/

/-- A concrete evaluation instant used in witnesses: 2026-01-01T00:00:00Z. -/
def cNow : Int := 1767225600 * 1000000000

/-- The default `-threshold` value, 180 days (main.go line 259). -/
def cThreshold : Int := 6 * 30 * 24 * hour

/-- A flag with every timestamp field at the zero/unset sentinel. -/
def unsetFlag : Flag :=
  { Key := "k", MaintainerEmail := "unknown", CreationDate := goZeroTime,
    LastModified := goZeroTime, LastRequested := goZeroTime, Temporary := true }

/-- A flag whose last request was exactly `cThreshold` before `cNow`. -/
def boundaryFlag : Flag :=
  { Key := "b", MaintainerEmail := "dev@example.com", CreationDate := 0,
    LastModified := 0, LastRequested := cNow - cThreshold, Temporary := true }

/-- An old temporary flag (creation and modification at the 1970 epoch). -/
def oldFlag : Flag :=
  { Key := "old", MaintainerEmail := "dev@example.com", CreationDate := 0,
    LastModified := 0, LastRequested := goZeroTime, Temporary := true }

/-- A page item with an empty maintainer email. -/
def demoItem1 : GetItem :=
  { Key := "alpha", Maintainer := ⟨""⟩, Temporary := true,
    CreationDate := 1500000000000,
    Environments := [("production", ⟨1500000000000⟩)] }

/-- A page item whose `environments` map is empty. -/
def demoItem2 : GetItem :=
  { Key := "beta", Maintainer := ⟨"dev@example.com"⟩, Temporary := false,
    CreationDate := 1600000000000, Environments := [] }

/-- A page item whose creation and last-modified epoch-ms integers are
both the zero `int64`. -/
def itemZeroMs : GetItem :=
  { Key := "zero", Maintainer := ⟨"dev@example.com"⟩, Temporary := true,
    CreationDate := 0, Environments := [("production", ⟨0⟩)] }

/-- `ChainTo E project env url seq final`: starting from `url`, the
endpoints serve exactly the GET/POST response pairs of `seq` — each GET
succeeds, the matching status-query POST (scoped to exactly that page's
keys, for the single environment `env`) succeeds — and following the
`next` links through `seq` ends at URL `final`. -/
def ChainTo (E : FetchEnv) (project env : String) :
    String → List (GetResponse × PostResponse) → String → Prop
  | url, [], final => url = final
  | url, page :: rest, final =>
    url ≠ "" ∧ E.fetchGet url = Except.ok page.1 ∧
    E.fetchPost (queryUrl project)
      { environmentKeys := [env], flagKeys := page.1.Keys } = Except.ok page.2 ∧
    ChainTo E project env page.1.Links.Next.Href rest final

/-- The flags one page contributes (main.go lines 230-244). -/
def pageFlags (env : String) (page : GetResponse × PostResponse) : List Flag :=
  page.1.Items.map (mkFlag env (page.2.LastRequested env))

/-- The POST body issued for one page (main.go lines 221-224). -/
def pageBody (env : String) (page : GetResponse × PostResponse) : PostBody :=
  { environmentKeys := [env], flagKeys := page.1.Keys }

/-- The first demo page: one item, `next` link naming the second page. -/
def demoGet1 : GetResponse :=
  { Links := ⟨⟨"/page2", "application/json"⟩⟩, Items := [demoItem1] }

/-- The second demo page: one item, empty `next` link. -/
def demoGet2 : GetResponse :=
  { Links := ⟨⟨"", ""⟩⟩, Items := [demoItem2] }

/-- The status item answering for the key `"alpha"`. -/
def demoPostItem1 : PostItem :=
  { Key := "alpha"
    Environments := [("production", { Name := "Production", LastRequested := 1700000000000000000 })] }

/-- The status-query answer for the first demo page. -/
def demoPost1 : PostResponse := { Items := [demoPostItem1] }

/-- The status-query answer for the second demo page. -/
def demoPost2 : PostResponse := { Items := [] }

/-- Endpoints serving the two demo pages as a chain. -/
def demoFetch : FetchEnv :=
  { fetchGet := fun url =>
      if url = firstPage "proj" "production" then Except.ok demoGet1
      else if url = "/page2" then Except.ok demoGet2
      else Except.error "not found"
    fetchPost := fun url body =>
      if url = queryUrl "proj" then
        if body.flagKeys = ["alpha"] then Except.ok demoPost1
        else if body.flagKeys = ["beta"] then Except.ok demoPost2
        else Except.error "bad body"
      else Except.error "not found" }

/-- Endpoints whose second page GET fails. -/
def failFetch : FetchEnv :=
  { fetchGet := fun url =>
      if url = firstPage "proj" "production" then Except.ok demoGet1
      else Except.error "boom"
    fetchPost := fun _ body =>
      if body.flagKeys = ["alpha"] then Except.ok demoPost1
      else Except.error "boom" }

/-- Flags with distinct maintainer emails, for the sort witness. -/
def sortF1 : Flag :=
  { Key := "one", MaintainerEmail := "a@example.com", CreationDate := 0,
    LastModified := 0, LastRequested := goZeroTime, Temporary := true }

def sortF2 : Flag :=
  { Key := "two", MaintainerEmail := "b@example.com", CreationDate := 0,
    LastModified := 0, LastRequested := goZeroTime, Temporary := true }

/-- Flags sharing maintainer and activity class, distinct creation
seconds, for the sort witness. -/
def sortF3 : Flag :=
  { Key := "three", MaintainerEmail := "dev@example.com", CreationDate := 0,
    LastModified := 0, LastRequested := goZeroTime, Temporary := true }

def sortF4 : Flag :=
  { Key := "four", MaintainerEmail := "dev@example.com", CreationDate := 1000000000,
    LastModified := 0, LastRequested := goZeroTime, Temporary := true }

/-- Two flags equal under all three sort keys but distinct records. -/
def stabF1 : Flag :=
  { Key := "first", MaintainerEmail := "dev@example.com", CreationDate := 0,
    LastModified := 0, LastRequested := goZeroTime, Temporary := true }

def stabF2 : Flag :=
  { Key := "second", MaintainerEmail := "dev@example.com", CreationDate := 0,
    LastModified := 0, LastRequested := goZeroTime, Temporary := true }

/-! ## Helper lemmas -/

theorem charListLt_self (l : List Char) : charListLt l l = false := by
  induction l with
  | nil => rfl
  | cons a as ih => simp [charListLt, ih]

theorem strLt_self (s : String) : strLt s s = false := charListLt_self s.data

theorem timeUnix_tdiv_tmod (ms : Int) :
    timeUnix (Int.tdiv ms 1000) (Int.tmod ms 1000 * 1000000) = ms * 1000000 := by
  have h := Int.tdiv_add_tmod ms 1000
  show Int.tdiv ms 1000 * 1000000000 + Int.tmod ms 1000 * 1000000 = ms * 1000000
  omega

theorem timeSub_le_max (t u : Int) : timeSub t u ≤ maxDuration :=
  max_le (by decide) (min_le_left _ _)

theorem agoString_ne_never (d : Int) : agoString d ≠ "never" := by
  intro h
  have hlen := congrArg String.length h
  unfold agoString at hlen
  have h1 : String.length "never" = 5 := rfl
  have h2 : String.length " years ago" = 10 := rfl
  have h3 : String.length " months ago" = 11 := rfl
  have h4 : String.length " days ago" = 9 := rfl
  have h5 : String.length " hours ago" = 10 := rfl
  have h6 : String.length " minutes ago" = 12 := rfl
  have h7 : String.length " seconds ago" = 12 := rfl
  split at hlen <;> [skip; split at hlen] <;>
    [skip; skip; split at hlen] <;> [skip; skip; skip; split at hlen] <;>
    [skip; skip; skip; skip; split at hlen] <;>
    rw [String.length_append, h1] at hlen <;>
    simp only [h2, h3, h4, h5, h6, h7] at hlen <;> omega

theorem filterStep_eq (now : Int) (threshold : Int) (wp : Bool) (acc : List Flag) (x : Flag) :
    (if !(x.CreationDateMoreThan now threshold) then acc
     else if !(x.LastModifiedMoreThan now threshold) then acc
     else if !x.Temporary && !wp then acc
     else acc ++ [x]) =
      (if (x.CreationDateMoreThan now threshold && x.LastModifiedMoreThan now threshold &&
          (x.Temporary || wp)) then acc ++ [x] else acc) := by
  cases hc : x.CreationDateMoreThan now threshold <;>
    cases hm : x.LastModifiedMoreThan now threshold <;>
    cases ht : x.Temporary <;> cases wp <;> simp

theorem filterFlags_eq_filter (now : Int) (threshold : Int) (wp : Bool)
    (flags : List Flag) :
    filterFlags now threshold wp flags =
      flags.filter (fun f => f.CreationDateMoreThan now threshold &&
        f.LastModifiedMoreThan now threshold && (f.Temporary || wp)) := by
  suffices h : ∀ (l acc : List Flag),
      l.foldl (fun filtered item =>
        if !(item.CreationDateMoreThan now threshold) then filtered
        else if !(item.LastModifiedMoreThan now threshold) then filtered
        else if !item.Temporary && !wp then filtered
        else filtered ++ [item]) acc
      = acc ++ l.filter (fun f => f.CreationDateMoreThan now threshold &&
          f.LastModifiedMoreThan now threshold && (f.Temporary || wp)) by
    simpa [filterFlags] using h flags []
  intro l
  induction l with
  | nil => intro acc; simp
  | cons x xs ih =>
    intro acc
    simp only [List.foldl_cons]
    rw [filterStep_eq, List.filter_cons]
    cases hk : (x.CreationDateMoreThan now threshold && x.LastModifiedMoreThan now threshold &&
        (x.Temporary || wp)) with
    | false =>
      simp only [hk, Bool.false_eq_true, if_false]
      exact ih acc
    | true =>
      simp only [hk, if_true]
      rw [ih]
      simp

/-! ## Verified claims -/

/-- Claim C7: a flag whose stored timestamp field is the zero/unset
`time.Time` sentinel satisfies the corresponding more-than predicate for
every duration, whatever the current instant. -/
theorem moreThan_unset (f : Flag) (now : Int) (value : Int) :
    (timeIsZero f.CreationDate = true → f.CreationDateMoreThan now value = true) ∧
    (timeIsZero f.LastModified = true → f.LastModifiedMoreThan now value = true) ∧
    (timeIsZero f.LastRequested = true → f.LastRequestedMoreThan now value = true) := by
  refine ⟨fun h => ?_, fun h => ?_, fun h => ?_⟩ <;>
    simp [Flag.CreationDateMoreThan, Flag.LastModifiedMoreThan,
      Flag.LastRequestedMoreThan, h]

theorem moreThan_unset_witness :
    unsetFlag.CreationDateMoreThan cNow maxDuration = true ∧
    unsetFlag.LastModifiedMoreThan cNow maxDuration = true ∧
    unsetFlag.LastRequestedMoreThan cNow maxDuration = true :=
  ⟨(moreThan_unset unsetFlag cNow maxDuration).1 (by decide),
   (moreThan_unset unsetFlag cNow maxDuration).2.1 (by decide),
   (moreThan_unset unsetFlag cNow maxDuration).2.2 (by decide)⟩

/-- Claim C5: `GetStatus` answers `"inactive"` exactly when the
last-requested timestamp is unset or `time.Since` it strictly exceeds the
threshold, and `"inuse"` otherwise; at the boundary where the elapsed
time equals the threshold exactly, the status is `"inuse"`. -/
theorem GetStatus_spec (f : Flag) (now : Int) (threshold : Int) :
    (f.GetStatus now threshold = "inactive" ↔
      (timeIsZero f.LastRequested = true ∨ timeSince now f.LastRequested > threshold)) ∧
    (f.GetStatus now threshold = "inuse" ↔
      ¬(timeIsZero f.LastRequested = true ∨ timeSince now f.LastRequested > threshold)) ∧
    (timeIsZero f.LastRequested = false → timeSince now f.LastRequested = threshold →
      f.GetStatus now threshold = "inuse") := by
  have hchar : f.LastRequestedMoreThan now threshold = true ↔
      (timeIsZero f.LastRequested = true ∨ timeSince now f.LastRequested > threshold) := by
    simp [Flag.LastRequestedMoreThan]
  refine ⟨?_, ?_, fun hz heq => ?_⟩
  · cases hlr : f.LastRequestedMoreThan now threshold <;>
      simp [hlr] at hchar <;> simp [Flag.GetStatus, hlr, hchar]
  · cases hlr : f.LastRequestedMoreThan now threshold <;>
      simp [hlr] at hchar <;> simp [Flag.GetStatus, hlr, hchar]
  · simp [Flag.GetStatus, Flag.LastRequestedMoreThan, hz, heq]

theorem GetStatus_spec_witness :
    boundaryFlag.GetStatus cNow cThreshold = "inuse" :=
  (GetStatus_spec boundaryFlag cNow cThreshold).2.2 (by decide) (by decide)

/-- Claim C6: the `ago` formatter renders exactly 400 days as
`"1.1 years ago"`, exactly 40 days as `"1.3 months ago"`, exactly 90
seconds as `"1.5 minutes ago"`, and an unset timestamp as `"never"` in
each of the three `...Ago` methods. -/
theorem ago_formatting (f : Flag) (now : Int) :
    f.ago (400 * 24 * hour) = "1.1 years ago" ∧
    f.ago (40 * 24 * hour) = "1.3 months ago" ∧
    f.ago (90 * second) = "1.5 minutes ago" ∧
    (timeIsZero f.CreationDate = true → f.CreationDateAgo now = "never") ∧
    (timeIsZero f.LastModified = true → f.LastModifiedAgo now = "never") ∧
    (timeIsZero f.LastRequested = true → f.LastRequestedAgo now = "never") := by
  refine ⟨?_, ?_, ?_, fun h => ?_, fun h => ?_, fun h => ?_⟩
  · show agoString (400 * 24 * hour) = "1.1 years ago"
    decide
  · show agoString (40 * 24 * hour) = "1.3 months ago"
    decide
  · show agoString (90 * second) = "1.5 minutes ago"
    decide
  all_goals
    simp [Flag.CreationDateAgo, Flag.LastModifiedAgo, Flag.LastRequestedAgo, h]

theorem ago_formatting_witness :
    unsetFlag.ago (400 * 24 * hour) = "1.1 years ago" ∧
    unsetFlag.CreationDateAgo cNow = "never" ∧
    unsetFlag.LastModifiedAgo cNow = "never" ∧
    unsetFlag.LastRequestedAgo cNow = "never" :=
  ⟨(ago_formatting unsetFlag cNow).1,
   (ago_formatting unsetFlag cNow).2.2.2.1 (by decide),
   (ago_formatting unsetFlag cNow).2.2.2.2.1 (by decide),
   (ago_formatting unsetFlag cNow).2.2.2.2.2 (by decide)⟩

/-- Claim C4: the filtering loop of `main` keeps a flag exactly when its
creation timestamp is more than the threshold ago (or unset), its
last-modified timestamp is more than the threshold ago (or unset), and
the flag is temporary or `-with-permanent` is set; every other flag is
absent from the filtered list that the report is rendered from. -/
theorem filterFlags_mem (now : Int) (threshold : Int) (withPermanent : Bool)
    (flags : List Flag) (f : Flag) :
    f ∈ filterFlags now threshold withPermanent flags ↔
      (f ∈ flags ∧ f.CreationDateMoreThan now threshold = true ∧
        f.LastModifiedMoreThan now threshold = true ∧
        (f.Temporary = true ∨ withPermanent = true)) := by
  rw [filterFlags_eq_filter]
  simp [List.mem_filter, and_assoc]

theorem filterFlags_mem_witness :
    oldFlag ∈ filterFlags cNow cThreshold false [oldFlag] :=
  (filterFlags_mem cNow cThreshold false [oldFlag] oldFlag).mpr (by decide)

/-- Claim C8: for each page item the constructed `Flag` has maintainer
email `"unknown"` when the source email is empty and the source email
verbatim otherwise; its creation and last-modified instants are the Unix
epoch plus the source epoch-millisecond integer (in ns: `ms * 10^6`), for
every millisecond value; and its last-requested instant is the
`lastRequested` map's entry for the item key, or the zero/unset instant
when the key is absent. -/
theorem mkFlag_spec (env : String) (lastRequested : List (String × Int)) (item : GetItem) :
    (item.Maintainer.Email = "" → (mkFlag env lastRequested item).MaintainerEmail = "unknown") ∧
    (item.Maintainer.Email ≠ "" →
      (mkFlag env lastRequested item).MaintainerEmail = item.Maintainer.Email) ∧
    (mkFlag env lastRequested item).CreationDate = item.CreationDate * 1000000 ∧
    (mkFlag env lastRequested item).LastModified =
      ((List.lookup env item.Environments).getD ⟨0⟩).LastModified * 1000000 ∧
    (∀ t, List.lookup item.Key lastRequested = some t →
      (mkFlag env lastRequested item).LastRequested = t) ∧
    (List.lookup item.Key lastRequested = none →
      (mkFlag env lastRequested item).LastRequested = goZeroTime) := by
  refine ⟨fun h => ?_, fun h => ?_, ?_, ?_, fun t ht => ?_, fun h => ?_⟩
  · simp [mkFlag, h]
  · simp [mkFlag, h]
  · simpa [mkFlag] using timeUnix_tdiv_tmod item.CreationDate
  · simpa [mkFlag] using timeUnix_tdiv_tmod
      ((List.lookup env item.Environments).getD ⟨0⟩).LastModified
  · simp [mkFlag, ht]
  · simp [mkFlag, h]

theorem mkFlag_spec_witness :
    (mkFlag "production" [("alpha", 1700000000000000000)] demoItem1).MaintainerEmail =
      "unknown" ∧
    (mkFlag "production" [("alpha", 1700000000000000000)] demoItem1).CreationDate =
      1500000000000 * 1000000 ∧
    (mkFlag "production" [("alpha", 1700000000000000000)] demoItem1).LastRequested =
      1700000000000000000 ∧
    (mkFlag "production" [] demoItem1).LastRequested = goZeroTime :=
  ⟨(mkFlag_spec "production" [("alpha", 1700000000000000000)] demoItem1).1 rfl,
   (mkFlag_spec "production" [("alpha", 1700000000000000000)] demoItem1).2.2.1,
   (mkFlag_spec "production" [("alpha", 1700000000000000000)] demoItem1).2.2.2.2.1
     1700000000000000000 (by decide),
   (mkFlag_spec "production" [] demoItem1).2.2.2.2.2 (by decide)⟩

/-- Claim C10: when a page item's `environments` map lacks the requested
environment, the constructed `LastModified` is the Unix epoch instant
(from the zero `int64`), not Go's zero/unset `time.Time`:
`LastModifiedAgo` renders an "ago" string rather than `"never"`, and
`LastModifiedMoreThan d` holds exactly when `time.Since` the 1970 epoch
exceeds `d` — in particular it fails at `d = maxDuration`, so not for
every duration. -/
theorem lastModified_missingEnv (env : String) (lastRequested : List (String × Int))
    (item : GetItem) (now : Int)
    (h : List.lookup env item.Environments = none) :
    (mkFlag env lastRequested item).LastModified = 0 ∧
    timeIsZero (mkFlag env lastRequested item).LastModified = false ∧
    (mkFlag env lastRequested item).LastModifiedAgo now ≠ "never" ∧
    (∀ d : Int, (mkFlag env lastRequested item).LastModifiedMoreThan now d = true ↔
      timeSince now 0 > d) ∧
    (mkFlag env lastRequested item).LastModifiedMoreThan now maxDuration = false := by
  have hlm : (mkFlag env lastRequested item).LastModified = 0 := by
    simp [mkFlag, h]
    decide
  have hz : timeIsZero (mkFlag env lastRequested item).LastModified = false := by
    rw [hlm]; decide
  have hz0 : timeIsZero (0 : Int) = false := by decide
  refine ⟨hlm, hz, ?_, fun d => ?_, ?_⟩
  · unfold Flag.LastModifiedAgo
    rw [hz, hlm]
    simpa [Flag.ago] using agoString_ne_never (timeSince now 0)
  · simp only [Flag.LastModifiedMoreThan, hlm, hz0, Bool.false_or, decide_eq_true_eq]
  · have hle : timeSince now 0 ≤ maxDuration := timeSub_le_max now 0
    simp only [Flag.LastModifiedMoreThan, hlm, hz0, Bool.false_or,
      decide_eq_false_iff_not]
    omega

theorem lastModified_missingEnv_witness :
    (mkFlag "production" [] demoItem2).LastModified = 0 ∧
    (mkFlag "production" [] demoItem2).LastModifiedAgo cNow ≠ "never" ∧
    (mkFlag "production" [] demoItem2).LastModifiedMoreThan cNow maxDuration = false :=
  ⟨(lastModified_missingEnv "production" [] demoItem2 cNow rfl).1,
   (lastModified_missingEnv "production" [] demoItem2 cNow rfl).2.2.1,
   (lastModified_missingEnv "production" [] demoItem2 cNow rfl).2.2.2.2⟩

/-- Claim C2 counterexample: a flag built from a zero epoch-millisecond
creation (and last-modified) integer does NOT satisfy the more-than
predicate for every duration: at the current instant 2026-01-01T00:00:00Z
and `d = maxDuration` both predicates answer `false`, because the stored
instant is the 1970 epoch, not the unset sentinel. -/
theorem zeroMs_moreThan_cex :
    (mkFlag "production" [] itemZeroMs).CreationDateMoreThan cNow maxDuration = false ∧
    (mkFlag "production" [] itemZeroMs).LastModifiedMoreThan cNow maxDuration = false := by
  constructor <;> decide

/-- Claim C2 (amended): a flag whose creation or last-modified field came
from a zero epoch-millisecond integer stores the Unix epoch instant, and
the corresponding more-than predicate holds exactly when `time.Since` the
epoch exceeds the duration — not for every duration. -/
theorem zeroMs_moreThan (env : String) (lastRequested : List (String × Int))
    (item : GetItem) (now : Int) (d : Int) :
    (item.CreationDate = 0 →
      (mkFlag env lastRequested item).CreationDate = 0 ∧
      ((mkFlag env lastRequested item).CreationDateMoreThan now d = true ↔
        timeSince now 0 > d)) ∧
    (((List.lookup env item.Environments).getD ⟨0⟩).LastModified = 0 →
      (mkFlag env lastRequested item).LastModified = 0 ∧
      ((mkFlag env lastRequested item).LastModifiedMoreThan now d = true ↔
        timeSince now 0 > d)) := by
  have hz0 : timeIsZero (0 : Int) = false := by decide
  constructor
  · intro h
    have hc : (mkFlag env lastRequested item).CreationDate = 0 := by
      simp [mkFlag, h]
      decide
    refine ⟨hc, ?_⟩
    simp only [Flag.CreationDateMoreThan, hc, hz0, Bool.false_or, decide_eq_true_eq]
  · intro h
    have hm : (mkFlag env lastRequested item).LastModified = 0 := by
      simp [mkFlag, h]
      decide
    refine ⟨hm, ?_⟩
    simp only [Flag.LastModifiedMoreThan, hm, hz0, Bool.false_or, decide_eq_true_eq]

theorem zeroMs_moreThan_witness :
    (mkFlag "production" [] itemZeroMs).CreationDate = 0 ∧
    (mkFlag "production" [] itemZeroMs).CreationDateMoreThan cNow cThreshold = true :=
  ⟨((zeroMs_moreThan "production" [] itemZeroMs cNow cThreshold).1 rfl).1,
   ((zeroMs_moreThan "production" [] itemZeroMs cNow cThreshold).1 rfl).2.mpr (by decide)⟩

/-! ### Claims C3 and C9: pagination -/

theorem getFlagsLoop_chain (E : FetchEnv) (project env : String)
    (seq : List (GetResponse × PostResponse)) :
    ∀ (fuel : Nat) (url final : String) (flags : List Flag) (posts : List PostBody),
      ChainTo E project env url seq final → seq.length ≤ fuel →
      getFlagsLoop E project env fuel url flags posts =
        getFlagsLoop E project env (fuel - seq.length) final
          (flags ++ seq.flatMap (pageFlags env)) (posts ++ seq.map (pageBody env)) := by
  induction seq with
  | nil =>
    intro fuel url final flags posts hchain _
    simp only [ChainTo] at hchain
    subst hchain
    simp
  | cons page rest ih =>
    intro fuel url final flags posts hchain hfuel
    simp only [ChainTo] at hchain
    obtain ⟨hurl, hget, hpost, hrest⟩ := hchain
    cases fuel with
    | zero => simp at hfuel
    | succ fuel =>
      rw [getFlagsLoop]
      simp only [if_neg hurl, hget, hpost]
      rw [ih fuel _ final _ _ hrest (by simpa using hfuel)]
      simp [pageFlags, pageBody, List.flatMap_cons]

/-- Claim C3: when the endpoints serve a finite chain of pages — each
page's `next` link naming the following page's URL and the last page's
`next` link empty — `GetFlags` returns exactly the concatenation of the
flags constructed from all pages, in page order and within-page item
order, and issues exactly one status-query POST per page, whose
`flagKeys` are exactly that page's item keys in item order and whose
`environmentKeys` is the single requested environment. -/
theorem GetFlags_pagination (E : FetchEnv) (project env : String)
    (seq : List (GetResponse × PostResponse)) (fuel : Nat)
    (hchain : ChainTo E project env (firstPage project env) seq "")
    (hfuel : seq.length ≤ fuel) :
    GetFlags E project env fuel =
      Except.ok (seq.flatMap (pageFlags env), seq.map (pageBody env)) := by
  unfold GetFlags
  rw [getFlagsLoop_chain E project env seq fuel _ "" [] [] hchain hfuel]
  rw [getFlagsLoop.eq_def]
  simp

/-- Claim C9: if, after any chain of successfully served pages, the next
page's GET fails, or its GET succeeds and the corresponding status-query
POST fails, then `GetFlags` returns exactly that error — Go's
`return nil, err` — and none of the flags accumulated from the earlier
pages. -/
theorem GetFlags_failFast (E : FetchEnv) (project env : String)
    (seq : List (GetResponse × PostResponse)) (url : String) (fuel : Nat) (e : String)
    (hchain : ChainTo E project env (firstPage project env) seq url)
    (hurl : url ≠ "")
    (hfuel : seq.length < fuel)
    (hfail : E.fetchGet url = Except.error e ∨
      ∃ g, E.fetchGet url = Except.ok g ∧
        E.fetchPost (queryUrl project)
          { environmentKeys := [env], flagKeys := g.Keys } = Except.error e) :
    GetFlags E project env fuel = Except.error e := by
  unfold GetFlags
  rw [getFlagsLoop_chain E project env seq fuel _ url [] [] hchain (Nat.le_of_lt hfuel)]
  obtain ⟨k, hk⟩ : ∃ k, fuel - seq.length = k + 1 :=
    ⟨fuel - seq.length - 1, by omega⟩
  rw [hk, getFlagsLoop]
  rcases hfail with hf | ⟨g, hg, hp⟩
  · simp [if_neg hurl, hf]
  · simp [if_neg hurl, hg, hp]

theorem GetFlags_pagination_witness :
    GetFlags demoFetch "proj" "production" 2 =
      Except.ok
        ([{ Key := "alpha", MaintainerEmail := "unknown",
            CreationDate := 1500000000000000000, LastModified := 1500000000000000000,
            LastRequested := 1700000000000000000, Temporary := true },
          { Key := "beta", MaintainerEmail := "dev@example.com",
            CreationDate := 1600000000000000000, LastModified := 0,
            LastRequested := goZeroTime, Temporary := false }],
         [{ environmentKeys := ["production"], flagKeys := ["alpha"] },
          { environmentKeys := ["production"], flagKeys := ["beta"] }]) :=
  (GetFlags_pagination demoFetch "proj" "production"
      [(demoGet1, demoPost1), (demoGet2, demoPost2)] 2
      ⟨by decide, rfl, rfl, by decide, rfl, rfl, rfl⟩ (by decide)).trans (by rfl)

theorem GetFlags_failFast_witness :
    GetFlags failFetch "proj" "production" 5 = Except.error "boom" :=
  GetFlags_failFast failFetch "proj" "production" [(demoGet1, demoPost1)] "/page2" 5 "boom"
    ⟨by decide, rfl, rfl, rfl⟩ (by decide) (by decide) (Or.inl rfl)

/-! ### Claim C1: the sort -/

/-- Claim C1 (amended): in any result of the `sort.Slice` call — any
permutation of the filtered list in which no later element compares less
than an earlier one — whenever `a` appears before `b`: `b`'s maintainer
email is not below `a`'s in Go string order; with equal maintainer
emails, if `b` is inactive (last-requested more than the threshold ago or
unset) then so is `a` (inactive sorts before active); and with equal
maintainer emails and the same inactive/active classification, `a`'s
`CreationDate.Unix()` second is at most `b`'s.  (`sort.Slice` does not
guarantee stability, so flags equal under all three keys need not keep
their input order; see the counterexample.) -/
theorem sortSlice_order (now threshold : Int) (input output : List Flag)
    (hsort : IsSortSliceResult (sortSliceLess now threshold) input output)
    (a b : Flag) (hab : List.Sublist [a, b] output) :
    strLt b.MaintainerEmail a.MaintainerEmail = false ∧
    (a.MaintainerEmail = b.MaintainerEmail →
      (b.LastRequestedMoreThan now threshold = true →
        a.LastRequestedMoreThan now threshold = true) ∧
      (a.LastRequestedMoreThan now threshold = b.LastRequestedMoreThan now threshold →
        timeUnixSec a.CreationDate ≤ timeUnixSec b.CreationDate)) := by
  obtain ⟨hperm, hpair⟩ := hsort
  have hp : List.Pairwise (fun x y => sortSliceLess now threshold y x = false) [a, b] :=
    List.Pairwise.sublist hab hpair
  have hba : sortSliceLess now threshold b a = false :=
    (List.pairwise_cons.mp hp).1 b (List.mem_cons_self b [])
  constructor
  · by_cases hm : b.MaintainerEmail = a.MaintainerEmail
    · rw [hm]
      exact strLt_self _
    · simp only [sortSliceLess] at hba
      rw [if_pos hm] at hba
      exact hba
  · intro hmeq
    have hmne : ¬(b.MaintainerEmail ≠ a.MaintainerEmail) := by simp [hmeq]
    simp only [sortSliceLess] at hba
    rw [if_neg hmne] at hba
    by_cases hi : b.LastRequestedMoreThan now threshold = a.LastRequestedMoreThan now threshold
    · have hine : ¬(b.LastRequestedMoreThan now threshold ≠
          a.LastRequestedMoreThan now threshold) := by simp [hi]
      rw [if_neg hine] at hba
      refine ⟨fun hb => hi ▸ hb, fun _ => ?_⟩
      exact le_of_not_lt (decide_eq_false_iff_not.mp hba)
    · rw [if_pos hi] at hba
      refine ⟨fun hb => ?_, fun hieq => absurd hieq.symm hi⟩
      rw [hb] at hba
      exact Bool.noConfusion hba

theorem sortSlice_order_witness :
    strLt sortF2.MaintainerEmail sortF1.MaintainerEmail = false ∧
    timeUnixSec sortF3.CreationDate ≤ timeUnixSec sortF4.CreationDate :=
  ⟨(sortSlice_order cNow cThreshold [sortF2, sortF1] [sortF1, sortF2]
      ⟨by decide, by decide⟩ sortF1 sortF2 (by decide)).1,
   ((sortSlice_order cNow cThreshold [sortF4, sortF3] [sortF3, sortF4]
      ⟨by decide, by decide⟩ sortF3 sortF4 (by decide)).2 rfl).2 rfl⟩

/-- Claim C1 counterexample (stability): `main` sorts with `sort.Slice`,
whose contract is only "a permutation ordered by the comparator" — Go
documents it as not guaranteed to be stable.  For the concrete input
`[stabF1, stabF2]`, two distinct flags tied under all three comparator
keys, the reversed output `[stabF2, stabF1]` also satisfies that
contract, so the code does not guarantee that flags equal under all three
keys keep their relative input order. -/
theorem sortSlice_unstable_cex :
    stabF1 ≠ stabF2 ∧
    IsSortSliceResult (sortSliceLess cNow cThreshold) [stabF1, stabF2] [stabF2, stabF1] :=
  ⟨by decide, by decide, by decide⟩

end LD
